import Mathlib

/-! Scenario driver of ns3-rmcat: `examples/simple-example.cc`.

A shallow embedding of the scenario driver: the topology builder
`BuildExampleTopo`, the three flow installers `InstallGccApps`, `InstallTCP`,
`InstallUDP`, the helper `GetIntervalFromBitrate`, and the flow loops of
`main`.

Conventions of the embedding.

* Unsigned machine integers are natural numbers; every place where the C++
  code narrows or may wrap is written out with an explicit `%`.
* `int` variables (`port`, the loop index `i`, the flow counts) are integers.
  Signed overflow is undefined in C++, so the model agrees with the program on
  every run in which the counter stays below `2^31`.
* The `double` values `start` and `end` computed in `main` are integers of
  magnitude far below `2^53`, on which `double` arithmetic is exact; they are
  integers here. Their narrowing to the `float` / `uint32_t` parameters of the
  installers is written out (`doubleToFloat`, `doubleToUint32`).
* The `double` arithmetic of `GetIntervalFromBitrate` is IEEE binary64 with
  rounding to nearest, ties to even (`uint64ToDouble`, `doubleDiv8`); a
  `double` is the rational number it denotes. `Seconds (secs)` is recorded
  with the `double` it is given.
* ns-3 objects are records of the attributes the driver sets on them. A node
  is its index in the container returned by `BuildExampleTopo`.
-/

namespace Rmcat

/-! ## Constants -/

/-- The two constants of `rmcat-constants.h` used by the driver. That header
is not among the sources, so their values are parameters; both are taken to
be `uint32_t`, the type at which the driver uses them. -/
structure Constants where
  DEFAULT_PACKET_SIZE : Nat
  IPV4_UDP_OVERHEAD : Nat
deriving DecidableEq, Repr

def GCC_DEFAULT_RMIN : Nat := 150000
def GCC_DEFAULT_RMAX : Nat := 1500000
def GCC_DEFAULT_RINIT : Nat := 150000

def TOPO_DEFAULT_BW : Nat := 1000000
def TOPO_DEFAULT_PDELAY : Nat := 50
def TOPO_DEFAULT_QDELAY : Nat := 300

/-! ## Machine arithmetic -/

/-- Conversion of an `int` to `uint16_t`: reduction modulo `2^16`. -/
def toUint16 (x : Int) : Nat := (x % 65536).toNat

/-- Conversion of an integer-valued `double` to `uint32_t`. In range the value
is kept; out of range the C++ behaviour is undefined and the model wraps. -/
def doubleToUint32 (x : Int) : Nat := (x % 4294967296).toNat

/-- Spacing of the binary32 numbers around the magnitude `n`: `1` below
`2^24`, doubling with every further bit. The first argument is fuel; `n`
itself is always enough, since the magnitude is halved at every step. -/
def floatUlp : Nat → Nat → Nat
  | 0, _ => 1
  | fuel + 1, n => if n < 16777216 then 1 else 2 * floatUlp fuel (n / 2)

/-- Conversion of an integer-valued `double` to `float` (24-bit significand),
rounding to nearest, ties to the even significand. -/
def doubleToFloat (x : Int) : Int :=
  let n := x.natAbs
  let u := floatUlp n n
  let q := n / u
  let r := n % u
  let m := if 2 * r < u then q else if u < 2 * r then q + 1
           else if q % 2 = 0 then q else q + 1
  x.sign * ((m * u : Nat) : Int)

/-- Spacing of the binary64 numbers around the magnitude `n`: `1` below
`2^53`, doubling with every further bit. The first argument is fuel; `n`
itself is always enough. -/
def doubleUlp : Nat → Nat → Nat
  | 0, _ => 1
  | fuel + 1, n => if n < 9007199254740992 then 1 else 2 * doubleUlp fuel (n / 2)

/-- Conversion of a `uint64_t` to `double` (53-bit significand), rounding to
nearest, ties to the even significand. The result is an integer. -/
def uint64ToDouble (n : Nat) : Nat :=
  let u := doubleUlp n n
  let q := n / u
  let r := n % u
  let m := if 2 * r < u then q else if u < 2 * r then q + 1
           else if q % 2 = 0 then q else q + 1
  m * u

/-- The least `k` with `2^52 * b ≤ n * 2^k`, for `n, b ≥ 1`: the number of
binary places after which the quotient `n / b` has a 53-bit integer part. The
first argument is fuel; `52 + b` is always enough. -/
def normShift : Nat → Nat → Nat → Nat
  | 0, _, _ => 0
  | fuel + 1, n, b => if 4503599627370496 * b ≤ n then 0 else normShift fuel (2 * n) b + 1

/-- The `double` quotient `a / (b / 8.)` of two integer-valued doubles with
`a < 2^32` and `1 ≤ b ≤ 2^64`, as a pair `(m, k)` that denotes `m / 2^k`.
The division `b / 8.` by a power of two is exact; the quotient `8a / b` lies
in the normal range below `2^53`, and is rounded to 53 significant bits, to
nearest, ties to even. -/
def doubleDiv8 (a b : Nat) : Nat × Nat :=
  if a = 0 then (0, 0)
  else
    let n := 8 * a
    let k := normShift (52 + b) n b
    let q := n * 2 ^ k / b
    let r := n * 2 ^ k % b
    let m := if 2 * r < b then q else if b < 2 * r then q + 1
             else if q % 2 = 0 then q else q + 1
    (m, k)

/-! ## Topology: `BuildExampleTopo` -/

/-- A point-to-point link as configured by `PointToPointHelper::Install` on a
two-node container. -/
structure PointToPointLink where
  nodeA : Nat
  nodeB : Nat
  dataRate : Nat
  delayMs : Nat
  queueType : String
  queueMode : String
  maxBytes : Nat
deriving DecidableEq, Repr

/-- An IPv4 address block given to `Ipv4AddressHelper::SetBase`. -/
structure Ipv4Block where
  network : Nat
  mask : Nat
deriving DecidableEq, Repr

/-- The 32-bit value of the dotted address `a.b.c.d`. -/
def dotted (a b c d : Nat) : Nat := ((a * 256 + b) * 256 + c) * 256 + d

/-- Membership of a 32-bit address in an address block. -/
def Ipv4Block.contains (b : Ipv4Block) (addr : Nat) : Bool :=
  addr &&& b.mask == b.network

structure Topology where
  nodes : Nat
  links : List PointToPointLink
  assigned : List (PointToPointLink × Ipv4Block)
  tcUninstalled : List PointToPointLink
deriving DecidableEq, Repr

/-- The local `bufSize` of `BuildExampleTopo`:
`std::max<uint32_t> (DEFAULT_PACKET_SIZE, bps * msQdelay / 8000)`.
The product and quotient are `uint64_t`; both arguments of `std::max` are
converted to `uint32_t`. -/
def bufSize (c : Constants) (bps msQdelay : Nat) : Nat :=
  max (c.DEFAULT_PACKET_SIZE % 4294967296)
      ((bps * msQdelay) % 18446744073709551616 / 8000 % 4294967296)

def BuildExampleTopo (c : Constants) (bps msDelay msQdelay : Nat) : Topology :=
  let n0n1 : Nat × Nat := (0, 1)
  let n1n2 : Nat × Nat := (1, 2)
  let n2n3 : Nat × Nat := (2, 3)
  let p2pInstall : Nat × Nat → PointToPointLink := fun p =>
    { nodeA := p.1, nodeB := p.2, dataRate := bps, delayMs := msDelay,
      queueType := "ns3::DropTailQueue", queueMode := "QUEUE_MODE_BYTES",
      maxBytes := bufSize c bps msQdelay }
  let dev0 := p2pInstall n0n1
  let dev1 := p2pInstall n1n2
  let dev2 := p2pInstall n2n3
  let mask := dotted 255 255 255 0
  { nodes := 4
    links := [dev0, dev1, dev2]
    assigned := [(dev0, ⟨dotted 10 1 1 0, mask⟩),
                 (dev1, ⟨dotted 10 1 2 0, mask⟩),
                 (dev2, ⟨dotted 10 1 3 0, mask⟩)]
    tcUninstalled := [dev0, dev1, dev2] }

/-! ## Flow installers -/

/-- An `Ipv4Address` value as the driver obtains it: either
`Ipv4Address::GetAny ()` or the result of
`node->GetObject<Ipv4> ()->GetAddress (interface, index).GetLocal ()`. -/
inductive Ipv4Address where
  | any
  | ofNode (node interface index : Nat)
deriving DecidableEq, Repr

/-- A `Time` value: `Time::Max ()` or `Seconds (secs)`. -/
inductive Time where
  | Max
  | Seconds (secs : ℚ)
deriving DecidableEq

/-- A `GccNode` application after `InstallGccApps` has configured it. -/
structure GccNode where
  node : Nat
  port : Nat
  setUpArg : Nat
  destIp : Ipv4Address
  destPort : Nat
  fps : Nat
  packetSize : Nat
  startTime : Int
  stopTime : Int
deriving DecidableEq, Repr

/-- The applications the driver installs. -/
inductive App where
  | gcc (app : GccNode)
  | bulkSend (node : Nat) (remoteIp : Ipv4Address) (remotePort : Nat)
      (maxBytes sendSize : Nat) (startTime stopTime : Int)
  | packetSink (node : Nat) (localIp : Ipv4Address) (localPort : Nat)
      (startTime stopTime : Int)
  | udpClient (node : Nat) (remoteIp : Ipv4Address) (remotePort : Nat)
      (maxPackets : Nat) (interval : Time) (packetSize : Nat)
      (startTime stopTime : Nat)
  | udpServer (node : Nat) (port : Nat) (startTime stopTime : Nat)
deriving DecidableEq

def InstallTCP (c : Constants) (sender receiver port : Nat)
    (startTime stopTime : Int) : List App :=
  let serverAddr := Ipv4Address.ofNode receiver 1 0
  [App.bulkSend sender serverAddr port 0 c.DEFAULT_PACKET_SIZE startTime stopTime,
   App.packetSink receiver Ipv4Address.any port startTime stopTime]

/-- The function `GetIntervalFromBitrate`. The sum `packetSize +
IPV4_UDP_OVERHEAD` is a `uint32_t` sum, converted exactly to `double`;
`bitrate` is converted to `double`, divided by `8.`, and the quotient of the
two doubles is the argument of `Seconds`. -/
def GetIntervalFromBitrate (c : Constants) (bitrate packetSize : Nat) : Time :=
  if bitrate = 0 then Time.Max
  else
    let sum := (packetSize + c.IPV4_UDP_OVERHEAD) % 4294967296
    let secs := doubleDiv8 sum (uint64ToDouble bitrate)
    Time.Seconds ((secs.1 : ℚ) / 2 ^ secs.2)

def InstallUDP (c : Constants) (sender receiver serverPort bitrate packetSize
    startTime stopTime : Nat) : List App :=
  let serverAddr := Ipv4Address.ofNode receiver 1 0
  let interPacketInterval := GetIntervalFromBitrate c bitrate packetSize
  let maxPacketCount := 0xFFFFFFFF
  [App.udpClient sender serverAddr serverPort maxPacketCount
     interPacketInterval packetSize startTime stopTime,
   App.udpServer receiver serverPort startTime stopTime]

def InstallGccApps (c : Constants) (node_1 node_2 port_1 port_2 : Nat)
    (startTime stopTime : Int) : List App :=
  let ipAdd_1 := Ipv4Address.ofNode node_1 1 0
  let ipAdd_2 := Ipv4Address.ofNode node_2 1 0
  let fps := 30
  let app_1 : GccNode :=
    { node := node_1, port := port_1, setUpArg := 1000000,
      destIp := ipAdd_2, destPort := port_2,
      fps := fps, packetSize := c.DEFAULT_PACKET_SIZE,
      startTime := startTime, stopTime := stopTime }
  let app_2 : GccNode :=
    { node := node_2, port := port_2, setUpArg := 0,
      destIp := ipAdd_1, destPort := port_1,
      fps := fps, packetSize := c.DEFAULT_PACKET_SIZE,
      startTime := startTime, stopTime := stopTime }
  [App.gcc app_1, App.gcc app_2]

/-! ## The flow loops of `main` -/

/-- A call of one of the installers, with the argument values the callee
receives (after conversion to its parameter types). -/
inductive Call where
  | gcc (node_1 node_2 port_1 port_2 : Nat) (startTime stopTime : Int)
  | tcp (sender receiver port : Nat) (startTime stopTime : Int)
  | udp (sender receiver serverPort bitrate packetSize startTime stopTime : Nat)
deriving DecidableEq, Repr

/-- The applications a call installs. -/
def Call.apps (c : Constants) : Call → List App
  | .gcc n1 n2 p1 p2 s e => InstallGccApps c n1 n2 p1 p2 s e
  | .tcp s r p t0 t1 => InstallTCP c s r p t0 t1
  | .udp s r p b k t0 t1 => InstallUDP c s r p b k t0 t1

/-- The port arguments of a call. -/
def Call.ports : Call → List Nat
  | .gcc _ _ p1 p2 _ _ => [p1, p2]
  | .tcp _ _ p _ _ => [p]
  | .udp _ _ p _ _ _ _ => [p]

inductive FlowKind where
  | rmcat
  | tcp
  | udp
deriving DecidableEq, Repr

/-- One iteration of a flow loop: the loop index, the locals `start` and
`end` (here `stop`), the `uint16_t` values read from `port++` in the
iteration, and the installer call made, if any. -/
structure FlowIter where
  kind : FlowKind
  i : Int
  start : Int
  stop : Int
  ports : List Nat
  call : Option Call
deriving DecidableEq, Repr

/-- The state threaded through the loops: the counter `port` and the
iterations executed so far. -/
structure St where
  port : Int
  trace : List FlowIter
deriving DecidableEq, Repr

def endTime : Int := 500

/-- Body of the loop that installs the adaptive flows. -/
def rmcatBody (mode : String) (i : Int) (st : St) : St :=
  let start := 10 * i                              -- auto start = 10. * i;
  let stop := max (start + 1) (endTime - start)    -- auto end = std::max (...);
  let port_1 := toUint16 st.port                   -- uint16_t port_1 = port++;
  let port := st.port + 1
  let port_2 := toUint16 port                      -- uint16_t port_2 = port++;
  let port := port + 1
  let call :=                                      -- if (mode == "gcc") InstallGccApps (...)
    if mode = "gcc" then
      some (Call.gcc 0 3 port_1 port_2 (doubleToFloat start) (doubleToFloat stop))
    else none
  { port := port
    trace := st.trace ++ [⟨FlowKind.rmcat, i, start, stop, [port_1, port_2], call⟩] }

/-- Body of the loop that installs the TCP flows. -/
def tcpBody (i : Int) (st : St) : St :=
  let start := 17 + 17 * i                         -- auto start = 17+ 17.*i;
  let stop := max (start + 1) (endTime - start)
  let p := toUint16 st.port                        -- argument port++ of InstallTCP
  { port := st.port + 1
    trace := st.trace ++ [⟨FlowKind.tcp, i, start, stop, [p],
      some (Call.tcp 0 3 p (doubleToFloat start) (doubleToFloat stop))⟩] }

/-- Body of the loop that installs the UDP flows. -/
def udpBody (c : Constants) (i : Int) (st : St) : St :=
  let bandwidth := GCC_DEFAULT_RMAX / 4
  let pktSize := c.DEFAULT_PACKET_SIZE % 4294967296
  let start := 23 + 23 * i                         -- auto start = 23+23. * i;
  let stop := max (start + 1) (endTime - start)
  let p := toUint16 st.port                        -- argument port++ of InstallUDP
  { port := st.port + 1
    trace := st.trace ++ [⟨FlowKind.udp, i, start, stop, [p],
      some (Call.udp 0 3 p bandwidth pktSize
        (doubleToUint32 start) (doubleToUint32 stop))⟩] }

/-- The loop `for (int i = 0; i < n; i++) body`. -/
def forLoop (n : Int) (body : Int → St → St) (st : St) : St :=
  (List.range n.toNat).foldl (fun s (i : Nat) => body (i : Int) s) st

/-- Result of a run of `main` up to the start of the simulation. -/
structure Run where
  topo : Topology
  port : Int
  trace : List FlowIter

/-- The driver, from the parsed command line (`nRmcat`, `nTcp`, `nUdp`,
`mode`) to the hand-over to the simulator. -/
def main (c : Constants) (nRmcat nTcp nUdp : Int) (mode : String) : Run :=
  let linkBw := TOPO_DEFAULT_BW
  let msDelay := TOPO_DEFAULT_PDELAY
  let msQDelay := TOPO_DEFAULT_QDELAY
  let nodes := BuildExampleTopo c linkBw msDelay msQDelay
  let st : St := { port := 8000, trace := [] }
  let st := forLoop nRmcat (rmcatBody mode) st
  let st := forLoop nTcp tcpBody st
  let st := forLoop nUdp (udpBody c) st
  { topo := nodes, port := st.port, trace := st.trace }

/-- The installer calls of a run, in program order. -/
def Run.calls (r : Run) : List Call :=
  r.trace.filterMap (fun it => it.call)

/-- The applications installed by a run, in program order. -/
def Run.apps (c : Constants) (r : Run) : List App :=
  r.calls.flatMap (Call.apps c)

/-- The port values handed to the installers by a run, in program order. -/
def Run.ports (r : Run) : List Nat :=
  r.calls.flatMap Call.ports

/-! ## Closed forms of the loop iterations

The record of iteration `i` of each loop as a function of the value of the
counter `port` on entry to the iteration. -/

def rmcatIter (mode : String) (i port : Int) : FlowIter :=
  (rmcatBody mode i ⟨port, []⟩).trace.headD ⟨FlowKind.rmcat, 0, 0, 0, [], none⟩

def tcpIter (i port : Int) : FlowIter :=
  (tcpBody i ⟨port, []⟩).trace.headD ⟨FlowKind.tcp, 0, 0, 0, [], none⟩

def udpIter (c : Constants) (i port : Int) : FlowIter :=
  (udpBody c i ⟨port, []⟩).trace.headD ⟨FlowKind.udp, 0, 0, 0, [], none⟩

/-- The `k`-th value read from a counter that starts at `base`, as a
`uint16_t`. -/
def portAt (base k : Nat) : Nat := (base + k) % 65536

end Rmcat

namespace Rmcat

/-! ## Loop lemmas -/

theorem rmcatBody_eq (mode : String) (i : Int) (st : St) :
    rmcatBody mode i st = ⟨st.port + 2, st.trace ++ [rmcatIter mode i st.port]⟩ := by
  simp [rmcatBody, rmcatIter, add_assoc]

theorem tcpBody_eq (i : Int) (st : St) :
    tcpBody i st = ⟨st.port + 1, st.trace ++ [tcpIter i st.port]⟩ := by
  simp [tcpBody, tcpIter]

theorem udpBody_eq (c : Constants) (i : Int) (st : St) :
    udpBody c i st = ⟨st.port + 1, st.trace ++ [udpIter c i st.port]⟩ := by
  simp [udpBody, udpIter]

/-- A counted loop whose body advances the counter by `d` and appends one
record leaves the counter at `port + d * n` and appends the `n` records. -/
theorem foldl_range_eq (body : Int → St → St) (f : Int → Int → FlowIter) (d : Int)
    (hbody : ∀ i st, body i st = ⟨st.port + d, st.trace ++ [f i st.port]⟩)
    (n : Nat) (st : St) :
    (List.range n).foldl (fun s (i : Nat) => body (i : Int) s) st =
      ⟨st.port + d * n,
       st.trace ++ (List.range n).map (fun (i : Nat) => f (i : Int) (st.port + d * i))⟩ := by
  induction n with
  | zero => simp
  | succ k ih =>
    rw [List.range_succ, List.foldl_append, ih]
    simp [hbody, List.map_append, mul_add, add_assoc]

theorem forLoop_eq (body : Int → St → St) (f : Int → Int → FlowIter) (d : Int)
    (hbody : ∀ i st, body i st = ⟨st.port + d, st.trace ++ [f i st.port]⟩)
    (n : Int) (st : St) :
    forLoop n body st =
      ⟨st.port + d * n.toNat,
       st.trace ++ (List.range n.toNat).map (fun (i : Nat) => f (i : Int) (st.port + d * i))⟩ :=
  foldl_range_eq body f d hbody n.toNat st

/-- Closed form of the trace of a run. -/
theorem main_trace (c : Constants) (nRmcat nTcp nUdp : Nat) (mode : String) :
    (main c nRmcat nTcp nUdp mode).trace =
      (List.range nRmcat).map (fun (k : Nat) => rmcatIter mode (k : Int) (8000 + 2 * k))
      ++ (List.range nTcp).map (fun (i : Nat) => tcpIter (i : Int) (8000 + 2 * nRmcat + i))
      ++ (List.range nUdp).map
          (fun (j : Nat) => udpIter c (j : Int) (8000 + 2 * nRmcat + nTcp + j)) := by
  simp only [main]
  rw [forLoop_eq _ _ 2 (rmcatBody_eq mode), forLoop_eq _ _ 1 tcpBody_eq,
    forLoop_eq _ _ 1 (udpBody_eq c)]
  simp [add_assoc]

/-- Closed form of the final value of the counter `port`. -/
theorem main_port (c : Constants) (nRmcat nTcp nUdp : Nat) (mode : String) :
    (main c nRmcat nTcp nUdp mode).port = 8000 + 2 * nRmcat + nTcp + nUdp := by
  simp only [main]
  rw [forLoop_eq _ _ 2 (rmcatBody_eq mode), forLoop_eq _ _ 1 tcpBody_eq,
    forLoop_eq _ _ 1 (udpBody_eq c)]
  simp


/-! ## Iteration records in closed form -/

theorem toUint16_natCast (m : Nat) : toUint16 (m : Int) = m % 65536 := by
  unfold toUint16
  omega

theorem doubleToUint32_natCast (m : Nat) : doubleToUint32 (m : Int) = m % 4294967296 := by
  unfold doubleToUint32
  omega

theorem rmcatIter_eq (mode : String) (i port : Int) :
    rmcatIter mode i port =
      ⟨FlowKind.rmcat, i, 10 * i, max (10 * i + 1) (500 - 10 * i),
       [toUint16 port, toUint16 (port + 1)],
       if mode = "gcc" then
         some (Call.gcc 0 3 (toUint16 port) (toUint16 (port + 1))
           (doubleToFloat (10 * i)) (doubleToFloat (max (10 * i + 1) (500 - 10 * i))))
       else none⟩ := rfl

theorem tcpIter_eq (i port : Int) :
    tcpIter i port =
      ⟨FlowKind.tcp, i, 17 + 17 * i, max (17 + 17 * i + 1) (500 - (17 + 17 * i)),
       [toUint16 port],
       some (Call.tcp 0 3 (toUint16 port) (doubleToFloat (17 + 17 * i))
         (doubleToFloat (max (17 + 17 * i + 1) (500 - (17 + 17 * i)))))⟩ := rfl

theorem udpIter_eq (c : Constants) (i port : Int) :
    udpIter c i port =
      ⟨FlowKind.udp, i, 23 + 23 * i, max (23 + 23 * i + 1) (500 - (23 + 23 * i)),
       [toUint16 port],
       some (Call.udp 0 3 (toUint16 port) 375000 (c.DEFAULT_PACKET_SIZE % 4294967296)
         (doubleToUint32 (23 + 23 * i))
         (doubleToUint32 (max (23 + 23 * i + 1) (500 - (23 + 23 * i)))))⟩ := rfl

/-- The trace of a run with the counter values written as naturals. -/
theorem main_trace_nat (c : Constants) (nRmcat nTcp nUdp : Nat) (mode : String) :
    (main c nRmcat nTcp nUdp mode).trace =
      (List.range nRmcat).map
          (fun (k : Nat) => rmcatIter mode (k : Int) ((8000 + 2 * k : Nat) : Int))
      ++ (List.range nTcp).map
          (fun (i : Nat) => tcpIter (i : Int) ((8000 + 2 * nRmcat + i : Nat) : Int))
      ++ (List.range nUdp).map
          (fun (j : Nat) => udpIter c (j : Int) ((8000 + 2 * nRmcat + nTcp + j : Nat) : Int)) := by
  rw [main_trace]
  push_cast
  rfl

theorem main_trace_length (c : Constants) (nRmcat nTcp nUdp : Nat) (mode : String) :
    (main c nRmcat nTcp nUdp mode).trace.length = nRmcat + nTcp + nUdp := by
  simp [main_trace, add_assoc]


/-! ## Calls and ports in closed form -/

theorem toUint16_portAt (base k : Nat) : toUint16 ((base + k : Nat) : Int) = portAt base k :=
  toUint16_natCast (base + k)

theorem toUint16_portAt_succ (base k : Nat) :
    toUint16 (((base + k : Nat) : Int) + 1) = portAt base (k + 1) := by
  have h : ((base + k : Nat) : Int) + 1 = ((base + (k + 1) : Nat) : Int) := by
    push_cast; ring
  rw [h]
  exact toUint16_natCast _

theorem filterMap_of_some {α β : Type} (g : α → Option β) (f : α → β) (l : List α)
    (h : ∀ x, g x = some (f x)) : l.filterMap g = l.map f := by
  induction l with
  | nil => rfl
  | cons a t ih => simp [List.filterMap_cons, h, ih]

theorem filterMap_of_none {α β : Type} (g : α → Option β) (l : List α)
    (h : ∀ x, g x = none) : l.filterMap g = [] := by
  induction l with
  | nil => rfl
  | cons a t ih => simp [List.filterMap_cons, h, ih]

theorem main_calls (c : Constants) (nRmcat nTcp nUdp : Nat) (mode : String) :
    (main c nRmcat nTcp nUdp mode).calls =
      (if mode = "gcc" then
        (List.range nRmcat).map (fun (k : Nat) =>
          Call.gcc 0 3 (portAt 8000 (2 * k)) (portAt 8000 (2 * k + 1))
            (doubleToFloat (10 * k)) (doubleToFloat (max (10 * k + 1) (500 - 10 * k))))
       else [])
      ++ (List.range nTcp).map (fun (i : Nat) =>
          Call.tcp 0 3 (portAt 8000 (2 * nRmcat + i)) (doubleToFloat (17 + 17 * i))
            (doubleToFloat (max (17 + 17 * i + 1) (500 - (17 + 17 * i)))))
      ++ (List.range nUdp).map (fun (j : Nat) =>
          Call.udp 0 3 (portAt 8000 (2 * nRmcat + nTcp + j)) 375000
            (c.DEFAULT_PACKET_SIZE % 4294967296)
            (doubleToUint32 (23 + 23 * j))
            (doubleToUint32 (max (23 + 23 * j + 1) (500 - (23 + 23 * j))))) := by
  unfold Run.calls
  rw [main_trace_nat]
  simp only [List.filterMap_append, List.filterMap_map]
  congr 1
  · congr 1
    · split
      · rename_i h
        apply filterMap_of_some
        intro k
        simp only [Function.comp, rmcatIter_eq, if_pos h, toUint16_portAt,
          toUint16_portAt_succ]
      · rename_i h
        apply filterMap_of_none
        intro k
        simp only [Function.comp, rmcatIter_eq, if_neg h]
    · apply filterMap_of_some
      intro i
      simp only [Function.comp, tcpIter_eq, add_assoc, toUint16_portAt]
  · apply filterMap_of_some
    intro j
    simp only [Function.comp, udpIter_eq, add_assoc, toUint16_portAt]

theorem range_pairs {α : Type} (p : Nat → α) (n : Nat) :
    (List.range n).flatMap (fun k => [p (2 * k), p (2 * k + 1)]) =
      (List.range (2 * n)).map p := by
  induction n with
  | zero => rfl
  | succ k ih =>
    have h : 2 * (k + 1) = (2 * k + 1) + 1 := by ring
    rw [List.range_succ, List.flatMap_append, ih, h, List.range_succ, List.range_succ]
    simp

theorem range_shift {α : Type} (p : Nat → α) (a b : Nat) :
    (List.range a).map p ++ (List.range b).map (fun i => p (a + i)) =
      (List.range (a + b)).map p := by
  rw [List.range_add, List.map_append, List.map_map]
  rfl

/-- The ports handed to the installers are consecutive values of the counter,
reduced to `uint16_t`. -/
theorem main_ports (c : Constants) (nRmcat nTcp nUdp : Nat) (mode : String) :
    (main c nRmcat nTcp nUdp mode).ports =
      if mode = "gcc" then
        (List.range (2 * nRmcat + nTcp + nUdp)).map (portAt 8000)
      else
        (List.range (nTcp + nUdp)).map (portAt (8000 + 2 * nRmcat)) := by
  have flat1 : ∀ (l : List Nat) (f : Nat → Nat),
      l.flatMap (fun i => [f i]) = l.map f := by
    intro l f
    induction l with
    | nil => rfl
    | cons a t ih => simp [List.flatMap_cons, ih]
  unfold Run.ports
  rw [main_calls]
  by_cases h : mode = "gcc"
  · simp only [if_pos h, List.flatMap_append, List.flatMap_map, Call.ports]
    rw [range_pairs (portAt 8000), flat1, flat1]
    rw [← range_shift (portAt 8000) (2 * nRmcat + nTcp) nUdp,
      ← range_shift (portAt 8000) (2 * nRmcat) nTcp]
  · simp only [if_neg h, List.flatMap_append, List.flatMap_map, Call.ports,
      List.flatMap_nil, List.nil_append]
    rw [flat1, flat1, ← range_shift (portAt (8000 + 2 * nRmcat)) nTcp nUdp]
    simp only [portAt, Nat.add_assoc]
    congr 1
    apply List.map_congr_left
    intro a _
    simp only [portAt, Nat.add_assoc]


/-! ## Distinctness of consecutive `uint16_t` counter values -/

theorem portAt_lt (base k : Nat) : portAt base k < 65536 :=
  Nat.mod_lt _ (by decide)

theorem portAt_nodup_iff (base m : Nat) :
    ((List.range m).map (portAt base)).Nodup ↔ m ≤ 65536 := by
  constructor
  · intro h
    have hsub : (List.range m).map (portAt base) ⊆ List.range 65536 := by
      intro x hx
      rcases List.mem_map.mp hx with ⟨k, _, rfl⟩
      exact List.mem_range.mpr (portAt_lt base k)
    have hlen := (List.subperm_of_subset h hsub).length_le
    simpa using hlen
  · intro h
    apply List.Nodup.map_on _ (List.nodup_range m)
    intro x hx y hy hxy
    have hx' := List.mem_range.mp hx
    have hy' := List.mem_range.mp hy
    unfold portAt at hxy
    omega

/-! ## Narrowing to `float` -/

theorem floatUlp_small (fuel n : Nat) (h : n < 16777216) : floatUlp fuel n = 1 := by
  cases fuel with
  | zero => rfl
  | succ f => simp [floatUlp, h]

/-- Integers of magnitude at most `2^24` are binary32 numbers: the narrowing
leaves them unchanged. -/
theorem doubleToFloat_exact (x : Int) (h : x.natAbs ≤ 16777216) : doubleToFloat x = x := by
  rcases Nat.lt_or_eq_of_le h with hlt | heq
  · simp only [doubleToFloat, floatUlp_small _ _ hlt]
    simp only [Nat.mod_one, Nat.div_one, Nat.mul_zero, Nat.mul_one, Nat.zero_lt_one,
      if_true]
    exact Int.sign_mul_natAbs x
  · have hx : x = 16777216 ∨ x = -16777216 := by omega
    rcases hx with rfl | rfl <;> decide


theorem floatUlp_spec (fuel n : Nat) (h : n ≤ fuel) : n < 16777216 * floatUlp fuel n := by
  induction fuel generalizing n with
  | zero =>
    have h0 : n = 0 := by omega
    subst h0
    decide
  | succ f ih =>
    unfold floatUlp
    split
    · omega
    · have := ih (n / 2) (by omega)
      omega

/-! ## Queue byte budget of the links -/

/-- C1 (as stated, refuted): for a 100 Gbit/s link and a 400 ms budget the
quotient 5000000000 does not fit `uint32_t`; every link gets `MaxBytes`
705032704, not `max(1200, 5000000000)`. -/
theorem queue_budget_truncated :
    (100000000000 : Nat) < 2 ^ 64 ∧ (400 : Nat) < 2 ^ 32 ∧
    ((BuildExampleTopo ⟨1200, 28⟩ 100000000000 50 400).links.map
        (fun l => l.maxBytes) = [705032704, 705032704, 705032704]) ∧
    max 1200 (100000000000 * 400 / 8000) = 5000000000 := by
  decide

/-- C1 (amended): when `DEFAULT_PACKET_SIZE` is a 32-bit value and the quotient
`bps * msQdelay / 8000` fits in 32 bits, every link built by
`BuildExampleTopo` has `MaxBytes = max(DEFAULT_PACKET_SIZE, bps * msQdelay / 8000)`. -/
theorem queue_budget_eq (c : Constants) (bps msDelay msQdelay : Nat)
    (hp : c.DEFAULT_PACKET_SIZE < 2 ^ 32) (hq : bps * msQdelay / 8000 < 2 ^ 32) :
    ∀ l ∈ (BuildExampleTopo c bps msDelay msQdelay).links,
      l.maxBytes = max c.DEFAULT_PACKET_SIZE (bps * msQdelay / 8000) := by
  have h64 : bps * msQdelay < 18446744073709551616 := by
    have := Nat.lt_of_div_lt_div (a := bps * msQdelay) (b := 18446744073709551616) (c := 8000)
      (by norm_num at hq ⊢; omega)
    exact this
  have hb : bufSize c bps msQdelay = max c.DEFAULT_PACKET_SIZE (bps * msQdelay / 8000) := by
    unfold bufSize
    norm_num at hp hq
    rw [Nat.mod_eq_of_lt hp, Nat.mod_eq_of_lt h64, Nat.mod_eq_of_lt hq]
  intro l hl
  simp only [BuildExampleTopo, List.mem_cons, List.mem_singleton, List.not_mem_nil,
    or_false] at hl
  rcases hl with rfl | rfl | rfl <;> exact hb

/-- The defaults of the driver, 1 Mbit/s and 300 ms, with a packet size of
1200 give a queue budget of 37500 bytes. -/
theorem queue_budget_eq_witness :
    (1200 : Nat) < 2 ^ 32 ∧ 1000000 * 300 / 8000 < 2 ^ 32 ∧
    (∀ l ∈ (BuildExampleTopo ⟨1200, 28⟩ 1000000 50 300).links,
      l.maxBytes = max 1200 (1000000 * 300 / 8000)) ∧
    max 1200 (1000000 * 300 / 8000) = 37500 :=
  ⟨by decide, by decide,
   queue_budget_eq ⟨1200, 28⟩ 1000000 50 300 (by decide) (by decide), by decide⟩

/-- C7: for every bandwidth and queueing-delay budget, wrapped or not, every
link built by `BuildExampleTopo` has `MaxBytes` at least `DEFAULT_PACKET_SIZE`
(a 32-bit value). -/
theorem queue_budget_ge_packet (c : Constants) (bps msDelay msQdelay : Nat)
    (hp : c.DEFAULT_PACKET_SIZE < 2 ^ 32) :
    ∀ l ∈ (BuildExampleTopo c bps msDelay msQdelay).links,
      c.DEFAULT_PACKET_SIZE ≤ l.maxBytes := by
  have hb : c.DEFAULT_PACKET_SIZE ≤ bufSize c bps msQdelay := by
    unfold bufSize
    norm_num at hp
    rw [Nat.mod_eq_of_lt hp]
    exact le_max_left _ _
  intro l hl
  simp only [BuildExampleTopo, List.mem_cons, List.mem_singleton, List.not_mem_nil,
    or_false] at hl
  rcases hl with rfl | rfl | rfl <;> exact hb

/-- The floor holds at an input whose quotient does not fit 32 bits. -/
theorem queue_budget_ge_packet_witness :
    (1200 : Nat) < 2 ^ 32 ∧
    ∀ l ∈ (BuildExampleTopo ⟨1200, 28⟩ 100000000000 50 400).links, 1200 ≤ l.maxBytes :=
  ⟨by decide, queue_budget_ge_packet ⟨1200, 28⟩ 100000000000 50 400 (by decide)⟩

/-! ## Shape of the topology -/

/-- C6: whatever the bandwidth and delays, `BuildExampleTopo` creates 4 nodes
and exactly the 3 links (0,1), (1,2), (2,3), gives them in this order the
blocks 10.1.1.0/24, 10.1.2.0/24, 10.1.3.0/24, and no address lies in two of
these blocks. -/
theorem topo_chain_disjoint_blocks (c : Constants) (bps msDelay msQdelay : Nat) :
    let t := BuildExampleTopo c bps msDelay msQdelay
    t.nodes = 4 ∧ t.links.length = 3 ∧
    t.links.map (fun l => (l.nodeA, l.nodeB)) = [(0, 1), (1, 2), (2, 3)] ∧
    t.assigned.map (fun p => p.1) = t.links ∧
    t.assigned.map (fun p => p.2) =
      [⟨dotted 10 1 1 0, dotted 255 255 255 0⟩, ⟨dotted 10 1 2 0, dotted 255 255 255 0⟩,
       ⟨dotted 10 1 3 0, dotted 255 255 255 0⟩] ∧
    (t.assigned.map (fun p => p.2)).Pairwise
      (fun b1 b2 => ∀ addr : Nat, ¬ (b1.contains addr = true ∧ b2.contains addr = true)) := by
  intro t
  refine ⟨rfl, rfl, rfl, rfl, rfl, ?_⟩
  have hne : ∀ (n1 n2 m : Nat), n1 ≠ n2 → ∀ addr : Nat,
      ¬ (Ipv4Block.contains ⟨n1, m⟩ addr = true ∧ Ipv4Block.contains ⟨n2, m⟩ addr = true) := by
    intro n1 n2 m hn addr ⟨h1, h2⟩
    simp only [Ipv4Block.contains, beq_iff_eq] at h1 h2
    exact hn (h1.symm.trans h2)
  simp only [t, BuildExampleTopo, List.map_cons, List.map_nil, List.pairwise_cons,
    List.mem_cons, List.mem_singleton, List.not_mem_nil, List.Pairwise.nil,
    forall_eq_or_imp, forall_eq, and_true, IsEmpty.forall_iff, implies_true]
  refine ⟨⟨hne _ _ _ (by decide), hne _ _ _ (by decide)⟩, hne _ _ _ (by decide)⟩


/-! ## Inter-packet interval of the UDP flows -/

theorem normShift_spec (fuel n b : Nat) (h : 4503599627370496 * b ≤ n * 2 ^ fuel) :
    4503599627370496 * b ≤ n * 2 ^ normShift fuel n b := by
  induction fuel generalizing n with
  | zero => simpa [normShift] using h
  | succ f ih =>
    unfold normShift
    split
    · simpa using ‹4503599627370496 * b ≤ n›
    · have h2 : 4503599627370496 * b ≤ 2 * n * 2 ^ f := by
        have e : 2 * n * 2 ^ f = n * 2 ^ (f + 1) := by ring
        rw [e]
        exact h
      have h3 := ih (2 * n) h2
      have e : n * 2 ^ (normShift f (2 * n) b + 1) = 2 * n * 2 ^ normShift f (2 * n) b := by
        ring
      rw [e]
      exact h3

theorem doubleUlp_pos (fuel n : Nat) : 0 < doubleUlp fuel n := by
  induction fuel generalizing n with
  | zero => exact Nat.one_pos
  | succ f ih =>
    unfold doubleUlp
    split
    · exact Nat.one_pos
    · have := ih (n / 2)
      omega

theorem doubleUlp_le (fuel n : Nat) (h : 1 ≤ n) : doubleUlp fuel n ≤ n := by
  induction fuel generalizing n with
  | zero => exact h
  | succ f ih =>
    unfold doubleUlp
    split
    · exact h
    · have := ih (n / 2) (by omega)
      omega

theorem doubleUlp_small (fuel n : Nat) (h : n < 9007199254740992) : doubleUlp fuel n = 1 := by
  cases fuel with
  | zero => rfl
  | succ f => simp [doubleUlp, h]

theorem doubleUlp_spec (fuel n : Nat) (h : n ≤ fuel) :
    n < 9007199254740992 * doubleUlp fuel n := by
  induction fuel generalizing n with
  | zero =>
    have h0 : n = 0 := by omega
    subst h0
    decide
  | succ f ih =>
    unfold doubleUlp
    split
    · omega
    · have := ih (n / 2) (by omega)
      omega

/-- The shift found by `normShift` is the least one: a quotient below `2^53`
stays below `2^53` after the shift, so the significand has at most 53 bits. -/
theorem normShift_lt (fuel n b : Nat) (h : n < 9007199254740992 * b) :
    n * 2 ^ normShift fuel n b < 9007199254740992 * b := by
  induction fuel generalizing n with
  | zero => simpa [normShift] using h
  | succ f ih =>
    unfold normShift
    split
    · simpa using h
    · have h3 := ih (2 * n) (by omega)
      have e : n * 2 ^ (normShift f (2 * n) b + 1) = 2 * n * 2 ^ normShift f (2 * n) b := by
        ring
      rw [e]
      exact h3

/-- A positive `uint64_t` converts to a positive `double`. -/
theorem uint64ToDouble_pos (n : Nat) (h : 0 < n) : 0 < uint64ToDouble n := by
  have hu := doubleUlp_pos n n
  have hle := doubleUlp_le n n h
  have hq : 0 < n / doubleUlp n n := Nat.div_pos hle hu
  unfold uint64ToDouble
  simp only
  split
  · exact Nat.mul_pos hq hu
  · split
    · exact Nat.mul_pos (by omega) hu
    · split
      · exact Nat.mul_pos hq hu
      · exact Nat.mul_pos (by omega) hu

/-- Integers up to `2^53` are binary64 numbers. -/
theorem uint64ToDouble_exact (n : Nat) (h : n ≤ 9007199254740992) : uint64ToDouble n = n := by
  rcases Nat.lt_or_eq_of_le h with hlt | heq
  · simp only [uint64ToDouble, doubleUlp_small _ _ hlt, Nat.mod_one, Nat.div_one,
      Nat.mul_zero, Nat.mul_one, Nat.zero_lt_one, if_true]
  · subst heq
    decide

/-- The rounded quotient is within half a unit in the last place of the exact
quotient `8a / b`: with `(m, k) = doubleDiv8 a b`, the distance between `m * b`
and `8a * 2^k` is at most `8a * 2^k / 2^53`. -/
theorem doubleDiv8_err (a b : Nat) (hb : 0 < b) :
    9007199254740992 * ((doubleDiv8 a b).1 * b)
        ≤ 9007199254740993 * (8 * a * 2 ^ (doubleDiv8 a b).2) ∧
    9007199254740991 * (8 * a * 2 ^ (doubleDiv8 a b).2)
        ≤ 9007199254740992 * ((doubleDiv8 a b).1 * b) := by
  by_cases ha : a = 0
  · subst ha
    simp [doubleDiv8]
  · have hfuel : 4503599627370496 * b ≤ 8 * a * 2 ^ (52 + b) := by
      have h1 : b ≤ 2 ^ b := Nat.le_of_lt (Nat.lt_two_pow b)
      have h2 : 4503599627370496 * b ≤ 4503599627370496 * 2 ^ b :=
        Nat.mul_le_mul_left _ h1
      have h3 : (2 : Nat) ^ (52 + b) = 4503599627370496 * 2 ^ b := by
        rw [Nat.pow_add]
      have h4 : 1 * 2 ^ (52 + b) ≤ 8 * a * 2 ^ (52 + b) :=
        Nat.mul_le_mul_right _ (by omega)
      omega
    have hN := normShift_spec (52 + b) (8 * a) b hfuel
    simp only [doubleDiv8, if_neg ha]
    generalize normShift (52 + b) (8 * a) b = k at hN ⊢
    generalize hNdef : 8 * a * 2 ^ k = N at hN ⊢
    have hdiv : b * (N / b) + N % b = N := Nat.div_add_mod N b
    have hr : N % b < b := Nat.mod_lt N hb
    generalize N / b = q at hdiv ⊢
    generalize N % b = r at hdiv hr ⊢
    have e1 : q * b = b * q := Nat.mul_comm q b
    have e2 : (q + 1) * b = b * q + b := by ring
    split
    · simp only [e1]; omega
    · split
      · simp only [e2]; omega
      · split
        · simp only [e1]; omega
        · simp only [e2]; omega

theorem doubleDiv8_rat (a b : Nat) (hb : 0 < b) :
    |((doubleDiv8 a b).1 : ℚ) / 2 ^ (doubleDiv8 a b).2 - 8 * (a : ℚ) / b|
      ≤ 8 * (a : ℚ) / b / 2 ^ 53 := by
  obtain ⟨h1, h2⟩ := doubleDiv8_err a b hb
  generalize (doubleDiv8 a b).1 = m at h1 h2 ⊢
  generalize (doubleDiv8 a b).2 = k at h1 h2 ⊢
  have hB : (0 : ℚ) < b := by exact_mod_cast hb
  have hK : (0 : ℚ) < 2 ^ k := by positivity
  have q1 : (9007199254740992 : ℚ) * (m * b) ≤ 9007199254740993 * (8 * a * 2 ^ k) := by
    exact_mod_cast h1
  have q2 : (9007199254740991 : ℚ) * (8 * a * 2 ^ k) ≤ 9007199254740992 * (m * b) := by
    exact_mod_cast h2
  have e : (m : ℚ) / 2 ^ k - 8 * (a : ℚ) / b = (m * b - 8 * a * 2 ^ k) / (2 ^ k * b) := by
    field_simp
    ring
  have e2 : 8 * (a : ℚ) / b / 2 ^ 53 = (8 * a * 2 ^ k / 2 ^ 53) / (2 ^ k * b) := by
    field_simp
    ring
  rw [e, e2, abs_div, abs_of_pos (mul_pos hK hB)]
  apply div_le_div_of_nonneg_right _ (le_of_lt (mul_pos hK hB))
  have h53 : (2 : ℚ) ^ 53 = 9007199254740992 := by norm_num
  rw [abs_le, h53]
  constructor <;> linarith

/-- C4 (as stated, refuted): for bitrate 375000, packet size 1200 and overhead
28 the function returns `Seconds` of the double `7550867240838443 / 2^58`,
which is not the rational `1228 / 46875`; and for `packetSize = 4294967295`
the `uint32_t` sum wraps to 27, so the result is the double next to
`27 / 46875`, nowhere near `8 * (4294967295 + 28) / 375000`. -/
theorem interval_rounded :
    GetIntervalFromBitrate ⟨1200, 28⟩ 375000 1200
      = Time.Seconds (7550867240838443 / 2 ^ 58) ∧
    (7550867240838443 / 2 ^ 58 : ℚ) ≠ 1228 / 46875 ∧
    (4294967295 : Nat) < 2 ^ 32 ∧
    GetIntervalFromBitrate ⟨1200, 28⟩ 375000 4294967295
      = Time.Seconds (5312662293228351 / 2 ^ 63) ∧
    (5312662293228351 / 2 ^ 63 : ℚ) ≠ 8 * (4294967295 + 28) / 375000 := by
  have h1 : doubleDiv8 ((1200 + 28) % 4294967296) (uint64ToDouble 375000)
      = (7550867240838443, 58) := by decide
  have h2 : doubleDiv8 ((4294967295 + 28) % 4294967296) (uint64ToDouble 375000)
      = (5312662293228351, 63) := by decide
  have hb : ¬ (375000 : Nat) = 0 := by decide
  refine ⟨?_, by norm_num, by decide, ?_, by norm_num⟩
  · simp only [GetIntervalFromBitrate, if_neg hb, h1]
    norm_num
  · simp only [GetIntervalFromBitrate, if_neg hb, h2]
    norm_num

/-- C4 (amended): `GetIntervalFromBitrate` returns `Time::Max ()` for bitrate
0. For a positive bitrate, when `packetSize + IPV4_UDP_OVERHEAD` fits 32 bits,
it returns `Seconds (d)` for the double `d` computed as
`(packetSize + IPV4_UDP_OVERHEAD) / (bitrate / 8.)`: `d` is within the relative
error `2^-53` of `8 * (packetSize + IPV4_UDP_OVERHEAD) / b`, where `b` is the
bitrate converted to `double`, and `b` is the bitrate itself up to `2^53`. -/
theorem interval_from_bitrate (c : Constants) (bitrate packetSize : Nat)
    (hb : 0 < bitrate) (hs : packetSize + c.IPV4_UDP_OVERHEAD < 2 ^ 32) :
    GetIntervalFromBitrate c 0 packetSize = Time.Max ∧
    ∃ d : ℚ, GetIntervalFromBitrate c bitrate packetSize = Time.Seconds d ∧
      |d - 8 * ((packetSize : ℚ) + c.IPV4_UDP_OVERHEAD) / (uint64ToDouble bitrate : ℚ)|
        ≤ 8 * ((packetSize : ℚ) + c.IPV4_UDP_OVERHEAD) / (uint64ToDouble bitrate : ℚ)
            / 2 ^ 53 ∧
      (bitrate ≤ 2 ^ 53 →
        |d - 8 * ((packetSize : ℚ) + c.IPV4_UDP_OVERHEAD) / (bitrate : ℚ)|
          ≤ 8 * ((packetSize : ℚ) + c.IPV4_UDP_OVERHEAD) / (bitrate : ℚ) / 2 ^ 53) := by
  refine ⟨by simp [GetIntervalFromBitrate], ?_⟩
  norm_num at hs
  have hb0 : bitrate ≠ 0 := by omega
  have herr := doubleDiv8_rat (packetSize + c.IPV4_UDP_OVERHEAD) (uint64ToDouble bitrate)
    (uint64ToDouble_pos bitrate hb)
  push_cast at herr
  refine ⟨_, ?_, herr, ?_⟩
  · simp only [GetIntervalFromBitrate, if_neg hb0, Nat.mod_eq_of_lt hs]
  · intro h53
    norm_num at h53
    have e : ((uint64ToDouble bitrate : Nat) : ℚ) = (bitrate : ℚ) := by
      rw [uint64ToDouble_exact bitrate h53]
    rw [e] at herr
    exact herr

/-- Bitrate 375000, packet size 1200 and overhead 28: the interval is a double
within the relative error `2^-53` of `1228 / 46875` seconds. -/
theorem interval_from_bitrate_witness :
    (0 : Nat) < 375000 ∧ 1200 + 28 < 2 ^ 32 ∧
    ∃ d : ℚ, GetIntervalFromBitrate ⟨1200, 28⟩ 375000 1200 = Time.Seconds d ∧
      |d - 1228 / 46875| ≤ 1228 / 46875 / 2 ^ 53 := by
  obtain ⟨d, hd, _, h⟩ :=
    (interval_from_bitrate ⟨1200, 28⟩ 375000 1200 (by decide) (by decide)).2
  refine ⟨by decide, by decide, d, hd, ?_⟩
  have h1 := h (by norm_num)
  norm_num at h1 ⊢
  exact h1

/-! ## The default run: two adaptive flows -/

/-- C5: with 2 adaptive, 0 TCP and 0 UDP flows and mode "gcc" the run installs
exactly 4 `GccNode` applications, on nodes 0, 3, 0, 3 and ports 8000, 8001,
8002, 8003; in each flow the application on node 0 has the address of node 3
and the port of its peer as destination, and conversely. -/
theorem two_adaptive_flows (c : Constants) :
    (main c 2 0 0 "gcc").apps c =
      [App.gcc ⟨0, 8000, 1000000, Ipv4Address.ofNode 3 1 0, 8001, 30,
          c.DEFAULT_PACKET_SIZE, 0, 500⟩,
       App.gcc ⟨3, 8001, 0, Ipv4Address.ofNode 0 1 0, 8000, 30,
          c.DEFAULT_PACKET_SIZE, 0, 500⟩,
       App.gcc ⟨0, 8002, 1000000, Ipv4Address.ofNode 3 1 0, 8003, 30,
          c.DEFAULT_PACKET_SIZE, 10, 490⟩,
       App.gcc ⟨3, 8003, 0, Ipv4Address.ofNode 0 1 0, 8002, 30,
          c.DEFAULT_PACKET_SIZE, 10, 490⟩] ∧
    ((main c 2 0 0 "gcc").apps c).length = 4 ∧
    (main c 2 0 0 "gcc").ports = [8000, 8001, 8002, 8003] := by
  refine ⟨?_, ?_, ?_⟩ <;> rfl

/-! ## Start and stop times -/

theorem stop_ge (start : Int) : start + 1 ≤ max (start + 1) (endTime - start) :=
  le_max_left _ _

/-- C8: a run executes one iteration per requested flow, and in every
iteration, of every kind and index `i ≥ 0`, the start time is the staggered
one of its kind, the stop time computed in `main` is
`max(start+1, endTime-start)`, and the stop time is at least `start + 1`. -/
theorem stop_ge_start_succ (c : Constants) (nRmcat nTcp nUdp : Nat) (mode : String) :
    (main c nRmcat nTcp nUdp mode).trace.length = nRmcat + nTcp + nUdp ∧
    ∀ it ∈ (main c nRmcat nTcp nUdp mode).trace,
      0 ≤ it.i ∧
      it.start = (match it.kind with
        | FlowKind.rmcat => 10 * it.i
        | FlowKind.tcp => 17 + 17 * it.i
        | FlowKind.udp => 23 + 23 * it.i) ∧
      it.stop = max (it.start + 1) (500 - it.start) ∧ it.start + 1 ≤ it.stop := by
  refine ⟨main_trace_length c nRmcat nTcp nUdp mode, ?_⟩
  intro it hit
  rw [main_trace] at hit
  simp only [List.mem_append, List.mem_map, List.mem_range] at hit
  rcases hit with (⟨k, _, rfl⟩ | ⟨k, _, rfl⟩) | ⟨k, _, rfl⟩
  · exact ⟨Int.ofNat_nonneg k, rfl, rfl, stop_ge _⟩
  · exact ⟨Int.ofNat_nonneg k, rfl, rfl, stop_ge _⟩
  · exact ⟨Int.ofNat_nonneg k, rfl, rfl, stop_ge _⟩


/-! ## Iterations by position -/

theorem trace_rmcat (c : Constants) (nRmcat nTcp nUdp : Nat) (mode : String)
    (k : Nat) (hk : k < nRmcat) :
    (main c nRmcat nTcp nUdp mode).trace[k]? =
      some (rmcatIter mode (k : Int) ((8000 + 2 * k : Nat) : Int)) := by
  rw [main_trace_nat, List.append_assoc,
    List.getElem?_append_left (by simpa using hk), List.getElem?_map,
    List.getElem?_range hk]
  rfl

theorem trace_tcp (c : Constants) (nRmcat nTcp nUdp : Nat) (mode : String)
    (i : Nat) (hi : i < nTcp) :
    (main c nRmcat nTcp nUdp mode).trace[nRmcat + i]? =
      some (tcpIter (i : Int) ((8000 + 2 * nRmcat + i : Nat) : Int)) := by
  rw [main_trace_nat, List.append_assoc,
    List.getElem?_append_right (by simp),
    List.getElem?_append_left (by simpa using hi), List.getElem?_map]
  simp [List.getElem?_range hi]

theorem trace_udp (c : Constants) (nRmcat nTcp nUdp : Nat) (mode : String)
    (j : Nat) (hj : j < nUdp) :
    (main c nRmcat nTcp nUdp mode).trace[nRmcat + nTcp + j]? =
      some (udpIter c (j : Int) ((8000 + 2 * nRmcat + nTcp + j : Nat) : Int)) := by
  rw [main_trace_nat, List.getElem?_append_right (by simp), List.getElem?_map]
  simp [List.getElem?_range hj]


/-! ## Port assignment -/

/-- C9: when `2*nRmcat + nTcp + nUdp ≤ 57536`, the iterations run in the order
adaptive, TCP, UDP; the `k`-th adaptive iteration reads the ports `8000+2k`
and `8000+2k+1`, the `i`-th TCP iteration the port `8000+2*nRmcat+i`, the
`j`-th UDP iteration the port `8000+2*nRmcat+nTcp+j`; and every installer call
made (all TCP and UDP iterations, and the adaptive ones in mode "gcc") gets
exactly the ports of its iteration. -/
theorem port_assignment (c : Constants) (nRmcat nTcp nUdp : Nat) (mode : String)
    (h : 2 * nRmcat + nTcp + nUdp ≤ 57536) :
    (main c nRmcat nTcp nUdp mode).trace.map (fun it => (it.kind, it.i, it.ports)) =
      (List.range nRmcat).map
          (fun (k : Nat) => (FlowKind.rmcat, (k : Int), [8000 + 2 * k, 8000 + 2 * k + 1]))
      ++ (List.range nTcp).map
          (fun (i : Nat) => (FlowKind.tcp, (i : Int), [8000 + 2 * nRmcat + i]))
      ++ (List.range nUdp).map
          (fun (j : Nat) => (FlowKind.udp, (j : Int), [8000 + 2 * nRmcat + nTcp + j])) ∧
    ∀ it ∈ (main c nRmcat nTcp nUdp mode).trace,
      (it.kind ≠ FlowKind.rmcat ∨ mode = "gcc") →
        ∃ call, it.call = some call ∧ call.ports = it.ports := by
  constructor
  · rw [main_trace_nat]
    simp only [List.map_append, List.map_map]
    congr 1
    · congr 1
      · apply List.map_congr_left
        intro k hk
        have hk' := List.mem_range.mp hk
        simp only [Function.comp, rmcatIter_eq, toUint16_portAt 8000 (2 * k),
          toUint16_portAt_succ 8000 (2 * k), portAt]
        rw [Nat.mod_eq_of_lt (by omega), Nat.mod_eq_of_lt (by omega)]
        rfl
      · apply List.map_congr_left
        intro i hi
        have hi' := List.mem_range.mp hi
        simp only [Function.comp, tcpIter_eq, toUint16_natCast]
        rw [Nat.mod_eq_of_lt (by omega)]
    · apply List.map_congr_left
      intro j hj
      have hj' := List.mem_range.mp hj
      simp only [Function.comp, udpIter_eq, toUint16_natCast]
      rw [Nat.mod_eq_of_lt (by omega)]
  · intro it hit hcall
    rw [main_trace] at hit
    simp only [List.mem_append, List.mem_map, List.mem_range] at hit
    rcases hit with (⟨k, _, rfl⟩ | ⟨k, _, rfl⟩) | ⟨k, _, rfl⟩
    · have hm : mode = "gcc" := by
        rcases hcall with hk | hm
        · exact absurd rfl hk
        · exact hm
      rw [rmcatIter_eq]
      simp only [if_pos hm]
      exact ⟨_, rfl, rfl⟩
    · exact ⟨_, rfl, rfl⟩
    · exact ⟨_, rfl, rfl⟩

/-- Ports of a run with 2 adaptive, 1 TCP and 1 UDP flow. -/
theorem port_assignment_witness :
    2 * 2 + 1 + 1 ≤ 57536 ∧
    (main ⟨1200, 28⟩ (2 : Nat) (1 : Nat) (1 : Nat) "gcc").trace.map
        (fun it => (it.kind, it.i, it.ports)) =
      [(FlowKind.rmcat, 0, [8000, 8001]), (FlowKind.rmcat, 1, [8002, 8003]),
       (FlowKind.tcp, 0, [8004]), (FlowKind.udp, 0, [8005])] :=
  ⟨by decide, (port_assignment ⟨1200, 28⟩ 2 1 1 "gcc" (by decide)).1.trans (by decide)⟩


/-! ## Injectivity of the port allocation -/

/-- C2 (as stated, refuted): with 65537 TCP flows the counter passes `2^16`;
TCP flow 0 and TCP flow 65536 both get port 8000. -/
theorem ports_repeat :
    (main ⟨1200, 28⟩ (0 : Nat) (65537 : Nat) (0 : Nat) "gcc").ports[0]? = some 8000 ∧
    (main ⟨1200, 28⟩ (0 : Nat) (65537 : Nat) (0 : Nat) "gcc").ports[65536]? = some 8000 ∧
    ¬ (main ⟨1200, 28⟩ (0 : Nat) (65537 : Nat) (0 : Nat) "gcc").ports.Nodup := by
  rw [main_ports]
  simp only [if_true]
  refine ⟨?_, ?_, ?_⟩
  · rw [List.getElem?_map, List.getElem?_range (by decide)]
    decide
  · rw [List.getElem?_map, List.getElem?_range (by decide)]
    decide
  · rw [portAt_nodup_iff]
    decide

/-- C2 (amended): the installers receive
`(2*nRmcat if mode is "gcc", else 0) + nTcp + nUdp` port values, and no value
is handed out twice exactly when that number is at most 65536; in particular
none is whenever `2*nRmcat + nTcp + nUdp ≤ 65536`. -/
theorem ports_injective_iff (c : Constants) (nRmcat nTcp nUdp : Nat) (mode : String) :
    (main c nRmcat nTcp nUdp mode).ports.length =
      (if mode = "gcc" then 2 * nRmcat else 0) + nTcp + nUdp ∧
    ((main c nRmcat nTcp nUdp mode).ports.Nodup ↔
      (main c nRmcat nTcp nUdp mode).ports.length ≤ 65536) ∧
    (2 * nRmcat + nTcp + nUdp ≤ 65536 → (main c nRmcat nTcp nUdp mode).ports.Nodup) := by
  rw [main_ports]
  by_cases hm : mode = "gcc"
  · rw [if_pos hm, if_pos hm, portAt_nodup_iff, List.length_map, List.length_range]
    exact ⟨rfl, Iff.rfl, id⟩
  · rw [if_neg hm, if_neg hm, portAt_nodup_iff, List.length_map, List.length_range]
    exact ⟨by omega, Iff.rfl, fun h => by omega⟩

/-- The default run hands out 4 distinct ports. -/
theorem ports_injective_iff_witness :
    2 * 2 + 0 + 0 ≤ 65536 ∧
    (main ⟨1200, 28⟩ (2 : Nat) (0 : Nat) (0 : Nat) "gcc").ports.Nodup :=
  ⟨by decide, (ports_injective_iff ⟨1200, 28⟩ 2 0 0 "gcc").2.2 (by decide)⟩

/-! ## Modes other than "gcc" -/

/-- C10 (as stated, refuted): in mode "nada" with 28768 adaptive flows and one
TCP flow, the counter reaches `8000 + 2*28768 = 65536` and the TCP flow gets
port 0. -/
theorem first_port_wraps :
    (main ⟨1200, 28⟩ (28768 : Nat) (1 : Nat) (0 : Nat) "nada").ports = [0] ∧
    8000 + 2 * 28768 = 65536 := by
  rw [main_ports]
  decide

/-- C10 (amended): in a mode other than "gcc" no adaptive iteration makes an
installer call and no `GccNode` application is installed; the adaptive loop
leaves the counter at `8000 + 2*nRmcat`; the first port handed out is
`(8000 + 2*nRmcat) mod 65536`, which is `8000 + 2*nRmcat` when this is below
65536; and the TCP and UDP iterations are those of the run in mode "gcc". -/
theorem non_gcc_mode (c : Constants) (nRmcat nTcp nUdp : Nat) (mode : String)
    (hmode : mode ≠ "gcc") :
    (∀ it ∈ (main c nRmcat nTcp nUdp mode).trace,
        it.kind = FlowKind.rmcat → it.call = none) ∧
    (∀ a ∈ (main c nRmcat nTcp nUdp mode).apps c, ∀ g : GccNode, a ≠ App.gcc g) ∧
    (forLoop nRmcat (rmcatBody mode) ⟨8000, []⟩).port = 8000 + 2 * nRmcat ∧
    (main c nRmcat nTcp nUdp mode).ports.head? =
      (if nTcp + nUdp = 0 then none else some ((8000 + 2 * nRmcat) % 65536)) ∧
    (8000 + 2 * nRmcat < 65536 → 0 < nTcp + nUdp →
      (main c nRmcat nTcp nUdp mode).ports.head? = some (8000 + 2 * nRmcat)) ∧
    (main c nRmcat nTcp nUdp mode).trace.filter (fun it => it.kind != FlowKind.rmcat) =
      (main c nRmcat nTcp nUdp "gcc").trace.filter (fun it => it.kind != FlowKind.rmcat) ∧
    (main c nRmcat nTcp nUdp mode).calls =
      (main c nRmcat nTcp nUdp "gcc").calls.drop nRmcat := by
  have hhead : (main c nRmcat nTcp nUdp mode).ports.head? =
      (if nTcp + nUdp = 0 then none else some ((8000 + 2 * nRmcat) % 65536)) := by
    rw [main_ports, if_neg hmode]
    cases hn : nTcp + nUdp with
    | zero => rfl
    | succ m => simp [List.range_succ_eq_map, portAt]
  refine ⟨?_, ?_, ?_, hhead, ?_, ?_, ?_⟩
  · intro it hit hkind
    rw [main_trace] at hit
    simp only [List.mem_append, List.mem_map, List.mem_range] at hit
    rcases hit with (⟨k, _, rfl⟩ | ⟨k, _, rfl⟩) | ⟨k, _, rfl⟩
    · rw [rmcatIter_eq]
      simp only [if_neg hmode]
    · simp [tcpIter_eq] at hkind
    · simp [udpIter_eq] at hkind
  · intro a ha g
    unfold Run.apps at ha
    rw [main_calls, if_neg hmode] at ha
    simp only [List.nil_append, List.flatMap_append, List.flatMap_map, List.mem_append,
      List.mem_flatMap, List.mem_range, Call.apps, InstallTCP, InstallUDP,
      List.mem_cons, List.mem_singleton, List.not_mem_nil, or_false] at ha
    rcases ha with ⟨_, _, rfl | rfl⟩ | ⟨_, _, rfl | rfl⟩ <;> exact App.noConfusion
  · rw [forLoop_eq _ _ 2 (rmcatBody_eq mode)]
    simp
  · intro hlt hpos
    rw [hhead, if_neg (by omega), Nat.mod_eq_of_lt hlt]
  · rw [main_trace, main_trace]
    simp only [List.filter_append, List.filter_map]
    have hr : ∀ m : String, List.filter
        ((fun it => it.kind != FlowKind.rmcat) ∘
          fun (k : Nat) => rmcatIter m (k : Int) (8000 + 2 * (k : Int)))
        (List.range nRmcat) = [] := by
      intro m
      apply List.filter_eq_nil_iff.mpr
      intro k _
      simp [rmcatIter_eq]
    rw [hr mode, hr "gcc"]
    rfl
  · rw [main_calls, main_calls, if_neg hmode, if_pos rfl]
    simp only [List.append_assoc, List.nil_append]
    rw [List.drop_left' (by simp)]

/-- Mode "nada" with 2 adaptive flows and 1 TCP flow: the first port handed
out is 8004. -/
theorem non_gcc_mode_witness :
    "nada" ≠ "gcc" ∧
    (main ⟨1200, 28⟩ (2 : Nat) (1 : Nat) (0 : Nat) "nada").ports.head? = some 8004 :=
  ⟨by decide, (non_gcc_mode ⟨1200, 28⟩ 2 1 0 "nada" (by decide)).2.2.2.1.trans (by decide)⟩


/-! ## Start and stop times handed to the installers -/

/-- C3 (as stated, refuted): for the adaptive flow of index 1677722 `main`
computes start 16777220 and stop 16777221; the stop is not a `float`, and
`InstallGccApps` receives the stop time 16777220, equal to the start time. -/
theorem stop_time_rounded :
    (main ⟨1200, 28⟩ (1677723 : Nat) (0 : Nat) (0 : Nat) "gcc").trace[1677722]? =
      some ⟨FlowKind.rmcat, 1677722, 16777220, 16777221, [21108, 21109],
        some (Call.gcc 0 3 21108 21109 16777220 16777220)⟩ ∧
    max (10 * 1677722 + 1) (500 - 10 * 1677722) = (16777221 : Int) := by
  rw [trace_rmcat _ _ _ _ _ 1677722 (by decide)]
  decide

/-- C3 (amended): in iteration `i` of the adaptive, TCP and UDP loop `main`
computes the start time `10*i`, `17+17*i`, `23+23*i` and the stop time
`max(start+1, 500-start)`. `InstallGccApps` (in mode "gcc") and `InstallTCP`
receive exactly these values when the stop time is at most `2^24`, and
`InstallUDP` when it is below `2^32`. -/
theorem start_stop_times (c : Constants) (nRmcat nTcp nUdp : Nat) (mode : String) (i : Nat) :
    (i < nRmcat → ∃ it, (main c nRmcat nTcp nUdp mode).trace[i]? = some it ∧
      it.kind = FlowKind.rmcat ∧ it.start = 10 * i ∧
      it.stop = max (10 * (i : Int) + 1) (500 - 10 * i) ∧
      (mode = "gcc" → it.stop ≤ 16777216 →
        ∃ p1 p2, it.call = some (Call.gcc 0 3 p1 p2 it.start it.stop))) ∧
    (i < nTcp → ∃ it, (main c nRmcat nTcp nUdp mode).trace[nRmcat + i]? = some it ∧
      it.kind = FlowKind.tcp ∧ it.start = 17 + 17 * i ∧
      it.stop = max (17 + 17 * (i : Int) + 1) (500 - (17 + 17 * i)) ∧
      (it.stop ≤ 16777216 →
        ∃ p, it.call = some (Call.tcp 0 3 p it.start it.stop))) ∧
    (i < nUdp → ∃ it, (main c nRmcat nTcp nUdp mode).trace[nRmcat + nTcp + i]? = some it ∧
      it.kind = FlowKind.udp ∧ it.start = 23 + 23 * i ∧
      it.stop = max (23 + 23 * (i : Int) + 1) (500 - (23 + 23 * i)) ∧
      (it.stop < 4294967296 →
        ∃ p b k, it.call = some (Call.udp 0 3 p b k it.start.toNat it.stop.toNat))) := by
  refine ⟨fun hi => ?_, fun hi => ?_, fun hi => ?_⟩
  · refine ⟨_, trace_rmcat c nRmcat nTcp nUdp mode i hi, rfl, rfl, rfl, ?_⟩
    intro hm hle
    rw [rmcatIter_eq] at hle ⊢
    simp only at hle
    simp only [if_pos hm]
    rw [doubleToFloat_exact (10 * (i : Int)) (by omega),
      doubleToFloat_exact (max (10 * (i : Int) + 1) (500 - 10 * i)) (by omega)]
    exact ⟨_, _, rfl⟩
  · refine ⟨_, trace_tcp c nRmcat nTcp nUdp mode i hi, rfl, rfl, rfl, ?_⟩
    intro hle
    rw [tcpIter_eq] at hle ⊢
    simp only at hle
    rw [doubleToFloat_exact (17 + 17 * (i : Int)) (by omega),
      doubleToFloat_exact (max (17 + 17 * (i : Int) + 1) (500 - (17 + 17 * i))) (by omega)]
    exact ⟨_, rfl⟩
  · refine ⟨_, trace_udp c nRmcat nTcp nUdp mode i hi, rfl, rfl, rfl, ?_⟩
    intro hlt
    rw [udpIter_eq] at hlt ⊢
    simp only at hlt
    have h1 : doubleToUint32 (23 + 23 * (i : Int)) = (23 + 23 * (i : Int)).toNat := by
      unfold doubleToUint32
      omega
    have h2 : doubleToUint32 (max (23 + 23 * (i : Int) + 1) (500 - (23 + 23 * i))) =
        (max (23 + 23 * (i : Int) + 1) (500 - (23 + 23 * i))).toNat := by
      unfold doubleToUint32
      omega
    rw [h1, h2]
    exact ⟨_, _, _, rfl⟩

/-- Flow 1 of the adaptive loop in a run with two flows of each kind: start
10, stop 490, handed unchanged to `InstallGccApps`. -/
theorem start_stop_times_witness :
    ∃ it, (main ⟨1200, 28⟩ (2 : Nat) (2 : Nat) (2 : Nat) "gcc").trace[1]? = some it ∧
      it.start = 10 ∧ it.stop = 490 ∧
      ∃ p1 p2, it.call = some (Call.gcc 0 3 p1 p2 10 490) := by
  obtain ⟨it, hit, _, hs, he, hc⟩ :=
    (start_stop_times ⟨1200, 28⟩ 2 2 2 "gcc" 1).1 (by decide)
  have hs1 : it.start = 10 := by rw [hs]; decide
  have he1 : it.stop = 490 := by rw [he]; decide
  obtain ⟨p1, p2, hcall⟩ := hc rfl (by rw [he1]; decide)
  exact ⟨it, hit, hs1, he1, p1, p2, by rw [hcall, hs1, he1]⟩

end Rmcat
